import Mathlib

/-!
# A shallow embedding of the oxwm window-manager control core

This file embeds, in Lean, the data model and the operations of the oxwm
window manager (`src/atom.rs`, `src/client.rs`, `src/main.rs`) and proves
properties of them.  Machine integers are modelled as `Int`/`Nat` with the
wrap-arounds of the source's `as` casts made explicit; Rust panics
(`unwrap`, failed `debug_assert!`, out-of-bounds `Vec` operations, integer
division by zero) are modelled by `Option`-returning functions where `none`
is a panic; the `?` operator on protocol requests is modelled with `Except`.
-/

/-- An X11 window identifier (`xproto::Window`, a `u32`). -/
abbrev Window : Type := Nat

/-- `atom.rs`: a client's WM_PROTOCOLS. -/
structure WmProtocols where
  take_focus : Bool
  delete_window : Bool
deriving DecidableEq, Repr

/-- `atom.rs`: `WmProtocols::new`, the default value. -/
def WmProtocols.new : WmProtocols := { take_focus := false, delete_window := false }

/-- `atom.rs`: possible values for WM_STATE.state. -/
inductive WmStateState : Type
  | Withdrawn
  | Normal
  | Iconic
deriving DecidableEq, Repr

/-- `atom.rs`: `impl From<WmStateState> for u32`. -/
def WmStateState.toU32 : WmStateState → Nat
  | .Withdrawn => 0
  | .Normal => 1
  | .Iconic => 3

/-- `atom.rs`: `impl TryFrom<u32> for WmStateState` (`Err` is `none`). -/
def WmStateState.tryFromU32 (value : Nat) : Option WmStateState :=
  if value = 0 then some .Withdrawn
  else if value = 1 then some .Normal
  else if value = 3 then some .Iconic
  else none

/-- `atom.rs`: the WM_STATE property value. -/
structure WmState where
  state : WmStateState
  icon : Window
deriving DecidableEq, Repr

/-- `atom.rs`: `impl From<WmState> for [u32; 2]`, the two-word wire encoding. -/
def WmState.toWords (value : WmState) : List Nat :=
  [value.state.toU32, value.icon]

/-- `atom.rs`: `impl TryFrom<&[u32]> for WmState`: a slice of any length other
than two, or a first word that is not a known state, fails. -/
def WmState.tryFromWords : List Nat → Option WmState
  | [state, icon] => (WmStateState.tryFromU32 state).map (fun s => { state := s, icon := icon })
  | _ => none

/-- The fields of x11rb's `WmSizeHints` that the source reads (WM_NORMAL_HINTS).
Components are `i32` values, modelled as `Int`. -/
structure WmSizeHints where
  min_size : Option (Int × Int) := none
  max_size : Option (Int × Int) := none
  base_size : Option (Int × Int) := none
  size_increment : Option (Int × Int) := none
deriving DecidableEq, Repr

/-- `client.rs`: `ClientState`, local data about a managed window.  `x`/`y`
are `i16` values and `width`/`height` are `u16` values, modelled as `Int`. -/
structure ClientState where
  x : Int
  y : Int
  width : Int
  height : Int
  is_viewable : Bool
  wm_protocols : WmProtocols
  wm_state : Option WmState
  wm_normal_hints : WmSizeHints
deriving DecidableEq, Repr

/-- `client.rs`: `Client`.  `state = None` is how the registry stores a window
whose override-redirect flag is set. -/
structure Client where
  window : Window
  state : Option ClientState
deriving DecidableEq, Repr

/-- `client.rs`: `Client::override_redirect`, translated exactly as written:
it returns `self.state.is_some()`. -/
def Client.override_redirect (c : Client) : Bool :=
  c.state.isSome

/-- `client.rs`: `Clients`, the window stack (index 0 = bottom) plus the
currently-focused window. -/
structure Clients where
  stack : List Client
  focus : Option Window
deriving DecidableEq, Repr

/-- `iter().enumerate().find(|(_, c)| c.window == window)`: the element
satisfying the predicate together with its index, or `none`. -/
def findWithIndex (p : Client → Bool) : List Client → Option (Nat × Client)
  | [] => none
  | c :: cs =>
      if p c then some (0, c)
      else (findWithIndex p cs).map (fun ic => (ic.1 + 1, ic.2))

/-- Rust's `Vec::remove(i)`: the removed element and the remaining list;
`none` models the out-of-bounds panic. -/
def vecRemove : Nat → List Client → Option (Client × List Client)
  | _, [] => none
  | 0, c :: cs => some (c, cs)
  | i + 1, c :: cs => (vecRemove i cs).map (fun r => (r.1, c :: r.2))

/-- Rust's `Vec::insert(i, a)`: `none` models the panic when `i > len`. -/
def vecInsert (i : Nat) (a : Client) (l : List Client) : Option (List Client) :=
  match i, l with
  | 0, l => some (a :: l)
  | _ + 1, [] => none
  | i + 1, c :: cs => (vecInsert i a cs).map (fun r => c :: r)

/-- `client.rs`: `Clients::get_with_index` (the `unwrap` on a missing window
is a panic, modelled by `none`). -/
def Clients.get_with_index (s : Clients) (window : Window) : Option (Nat × Client) :=
  findWithIndex (fun c => c.window == window) s.stack

/-- `client.rs`: `Clients::has_client`. -/
def Clients.has_client (s : Clients) (window : Window) : Bool :=
  s.stack.any (fun c => c.window == window)

/-- `client.rs`: `Clients::push`.  The `debug_assert!` rejecting a duplicate
window id is modelled as a panic (`none`). -/
def Clients.push (s : Clients) (client : Client) : Option Clients :=
  if s.stack.any (fun c => c.window == client.window) then none
  else some { s with stack := s.stack ++ [client] }

/-- `client.rs`: `Clients::remove`: remove by id (panicking if absent), then
clear the focus if the removed window was focused. -/
def Clients.remove (s : Clients) (window : Window) : Option Clients := do
  let iw ← s.get_with_index window
  let r ← vecRemove iw.1 s.stack
  some { stack := r.2, focus := if s.focus = some window then none else s.focus }

/-- `client.rs`: `Clients::move_to_above`. -/
def Clients.move_to_above (s : Clients) (window sibling : Window) : Option Clients := do
  let iw ← s.get_with_index window
  if 0 < iw.1 ∧ (s.stack.get? (iw.1 - 1)).map Client.window = some sibling then
    some s
  else do
    let r ← vecRemove iw.1 s.stack
    let jw ← findWithIndex (fun c => c.window == sibling) r.2
    let stack2 ← vecInsert (jw.1 + 1) r.1 r.2
    some { s with stack := stack2 }

/-- `client.rs`: `Clients::move_to_bottom` (`first().unwrap()` panics on an
empty stack). -/
def Clients.move_to_bottom (s : Clients) (window : Window) : Option Clients := do
  let first ← s.stack.head?
  if first.window = window then some s
  else do
    let iw ← s.get_with_index window
    let r ← vecRemove iw.1 s.stack
    some { s with stack := r.1 :: r.2 }

/-- `client.rs`: `Clients::move_to_top` (`top()` is `last().unwrap()`). -/
def Clients.move_to_top (s : Clients) (window : Window) : Option Clients := do
  let top ← s.stack.getLast?
  if top.window = window then some s
  else do
    let iw ← s.get_with_index window
    let r ← vecRemove iw.1 s.stack
    some { s with stack := r.2 ++ [r.1] }

/-- `client.rs`: `Clients::set_focus` (the `debug_assert!` that a `Some`
focus names a tracked window is a panic when it fails). -/
def Clients.set_focus (s : Clients) (window : Option Window) : Option Clients :=
  if window.all (fun w => s.stack.any (fun c => c.window == w)) then
    some { s with focus := window }
  else none

/-- The window ids of a stack, bottom to top. -/
def stackIds (l : List Client) : List Window :=
  l.map Client.window

/-- `main.rs`: default minimum client width (`MIN_WIDTH: u16 = 128`). -/
def MIN_WIDTH : Int := 128

/-- `main.rs`: default maximum client width (`MAX_WIDTH: u16 = 16384`). -/
def MAX_WIDTH : Int := 16384

/-- `main.rs`: default minimum client height. -/
def MIN_HEIGHT : Int := 128

/-- `main.rs`: default maximum client height. -/
def MAX_HEIGHT : Int := 16384

/-- The value of an `i16` cast (`as i16`) or wrapping `i16` arithmetic. -/
def wrap16 (n : Int) : Int := (n + 32768) % 65536 - 32768

/-- The value of a `u32` cast (`as u32`) or wrapping `u32` arithmetic. -/
def wrap32 (n : Int) : Int := n % 4294967296

/-- `main.rs`: `Corner`. -/
inductive Corner : Type
  | LeftTop
  | LeftBottom
  | RightTop
  | RightBottom
deriving DecidableEq, Repr

/-- `main.rs`: `Corner::relative` (the `st.width as i16` / `st.height as i16`
casts wrap). -/
def Corner.relative (c : Corner) (st : ClientState) : Int × Int :=
  match c with
  | .LeftTop => (0, 0)
  | .LeftBottom => (0, wrap16 st.height)
  | .RightTop => (wrap16 st.width, 0)
  | .RightBottom => (wrap16 st.width, wrap16 st.height)

/-- `main.rs`: `DragType`. -/
inductive DragType : Type
  | Move
  | Resize (corner : Corner)
deriving DecidableEq, Repr

/-- `main.rs`: `Drag`.  `x`/`y` are the pointer offsets relative to the drag
corner, `i16` values. -/
structure Drag where
  type_ : DragType
  window : Window
  x : Int
  y : Int
deriving DecidableEq, Repr

/-- The fields of `xproto::ConfigureWindowAux` the motion handler sets: a
partial geometry.  `x`/`y` hold `i32` values, `width`/`height` hold `u32`
values. -/
structure GeomConfig where
  x : Option Int := none
  y : Option Int := none
  width : Option Int := none
  height : Option Int := none
deriving DecidableEq, Repr

/-- The `i16` coordinates of a MotionNotify event used by the drag code. -/
structure MotionEvent where
  root_x : Int
  root_y : Int
  event_x : Int
  event_y : Int
deriving DecidableEq, Repr

/-- The effective minimum size: `st.wm_normal_hints.min_size.unwrap_or((MIN_WIDTH as i32, MIN_HEIGHT as i32))`. -/
def effMin (st : ClientState) : Int × Int :=
  st.wm_normal_hints.min_size.getD (MIN_WIDTH, MIN_HEIGHT)

/-- The effective maximum size: `st.wm_normal_hints.max_size.unwrap_or((MAX_WIDTH as i32, MAX_HEIGHT as i32))`. -/
def effMax (st : ClientState) : Int × Int :=
  st.wm_normal_hints.max_size.getD (MAX_WIDTH, MAX_HEIGHT)

/-- `main.rs`, MotionNotify arm, the `match drag.type_` computing the next
geometry from a pointer sample (before increment snapping).  Every `i16`
subtraction and every `as i16`/`as u32` cast of the source appears as a
`wrap16`/`wrap32`. -/
def motionGeometry (st : ClientState) (drag : Drag) (ev : MotionEvent) : GeomConfig :=
  let min_width := (effMin st).1
  let min_height := (effMin st).2
  let max_width := (effMax st).1
  let max_height := (effMax st).2
  match drag.type_ with
  | .Move =>
      { x := some (wrap16 (ev.root_x - drag.x)), y := some (wrap16 (ev.root_y - drag.y)) }
  | .Resize corner =>
    match corner with
    | .LeftTop =>
        let x0 := wrap16 (ev.root_x - drag.x)
        let width0 := st.width - wrap16 (x0 - st.x)
        let width1 := if width0 < min_width then min_width
          else if width0 > max_width then max_width else width0
        let x1 := if width0 < min_width then wrap16 (st.x + (st.width - min_width))
          else if width0 > max_width then wrap16 (st.x + (st.width - max_width)) else x0
        let y0 := wrap16 (ev.root_y - drag.y)
        let height0 := st.height - wrap16 (y0 - st.y)
        let height1 := if height0 < min_height then min_height
          else if height0 > max_height then max_height else height0
        let y1 := if height0 < min_height then wrap16 (st.y + (st.height - min_height))
          else if height0 > max_height then wrap16 (st.y + (st.height - max_height)) else y0
        { x := some x1, y := some y1, width := some (wrap32 width1), height := some (wrap32 height1) }
    | .LeftBottom =>
        let height := wrap32 (min (max (max (wrap16 (ev.event_y - drag.y)) 0) min_height) max_height)
        let x0 := wrap16 (ev.root_x - drag.x)
        let width0 := st.width - wrap16 (x0 - st.x)
        let width1 := if width0 < min_width then min_width
          else if width0 > max_width then max_width else width0
        let x1 := if width0 < min_width then wrap16 (st.x + (st.width - min_width))
          else if width0 > max_width then wrap16 (st.x + (st.width - max_width)) else x0
        { x := some x1, width := some (wrap32 width1), height := some height }
    | .RightTop =>
        let width := wrap32 (min (max (max (wrap16 (ev.event_x - drag.x)) 0) min_width) max_width)
        let y0 := wrap16 (ev.root_y - drag.y)
        let height0 := st.height - wrap16 (y0 - st.y)
        let height1 := if height0 < min_height then min_height
          else if height0 > max_height then max_height else height0
        let y1 := if height0 < min_height then wrap16 (st.y + (st.height - min_height))
          else if height0 > max_height then wrap16 (st.y + (st.height - max_height)) else y0
        { y := some y1, width := some width, height := some (wrap32 height1) }
    | .RightBottom =>
        let width := wrap32 (min (max (max (wrap16 (ev.event_x - drag.x)) 0) min_width) max_height)
        let height := wrap32 (min (max (max (wrap16 (ev.event_y - drag.y)) 0) min_height) max_height)
        { width := some width, height := some height }

/-- `main.rs`, MotionNotify arm, the increment-snapping step (`if let
(Some((base_width, base_height)), Some((width_inc, height_inc))) = ...`).
All arithmetic is `u32` (wrapping in release builds); division by a zero
increment is a panic, modelled by `none`. -/
def snapDims (hints : WmSizeHints) (config : GeomConfig) : Option GeomConfig :=
  match hints.base_size, hints.size_increment with
  | some bs, some inc =>
      let base_width := wrap32 bs.1
      let base_height := wrap32 bs.2
      let width_inc := wrap32 inc.1
      let height_inc := wrap32 inc.2
      if width_inc = 0 ∨ height_inc = 0 then none
      else
        let config1 := match config.width with
          | some width =>
              let units := wrap32 (width - base_width) / width_inc
              let pixels := wrap32 (units * width_inc)
              { config with width := some (wrap32 (base_width + pixels)) }
          | none => config
        let config2 := match config1.height with
          | some height =>
              let units := wrap32 (height - base_height) / height_inc
              let pixels := wrap32 (units * height_inc)
              { config1 with height := some (wrap32 (base_height + pixels)) }
          | none => config1
        some config2
  | _, _ => some config

/-- The full geometry pipeline of the MotionNotify arm: corner geometry
followed by increment snapping. -/
def motionConfig (st : ClientState) (drag : Drag) (ev : MotionEvent) : Option GeomConfig :=
  snapDims st.wm_normal_hints (motionGeometry st drag ev)

/-- Modelled from the spec: "each axis's final size is snapped down to
`base + k*increment` for the largest integer `k` such that the result does
not exceed the clamped size" (section 4.3).  For a positive increment this
is `base + inc * ((size - base) / inc)` with floor division. -/
def specSnap (size base inc : Int) : Int :=
  base + inc * ((size - base) / inc)

/-- The geometry fields of a ConfigureRequest as
`ConfigureWindowAux::from_configure_request` extracts them: each field is
present exactly when the request's value mask carries it.  `width`/`height`
hold `u32` values (converted from the event's `u16` fields). -/
structure CRAux where
  x : Option Int := none
  y : Option Int := none
  width : Option Int := none
  height : Option Int := none
  border_width : Option Int := none
deriving DecidableEq, Repr

/-- `main.rs`, ConfigureRequest arm: look the window up (panicking if
untracked), `unwrap` its state (panicking for an override-redirect window,
whose state is `None`), then clamp the requested width/height to the size
hints only when `!client.override_redirect()`.  Returns the value list
passed to `configure_window`. -/
def configureRequest (clients : Clients) (window : Window) (request : CRAux) :
    Option CRAux := do
  let iw ← clients.get_with_index window
  let st ← iw.2.state
  let min_width := (effMin st).1
  let min_height := (effMin st).2
  let max_width := (effMax st).1
  let max_height := (effMax st).2
  let value_list :=
    if ¬ iw.2.override_redirect then
      { request with
        width := request.width.map (fun w => min (max w (wrap32 min_width)) (wrap32 max_width)),
        height := request.height.map (fun h => min (max h (wrap32 min_height)) (wrap32 max_height)) }
    else request
  some value_list

/-- `main.rs`, DestroyNotify arm: the predicate of the refocus scan's loop
body (`if let Some(ref st) = client.state { if st.is_viewable { ... } }`). -/
def viewableManaged (c : Client) : Bool :=
  match c.state with
  | some st => st.is_viewable
  | none => false

/-- `main.rs`, DestroyNotify arm: `for client in
self.clients.iter().rev().skip(1) { ... break; }` — the window the loop
issues a focus request for, if any.  Note that `skip(1)` skips the topmost
stack entry. -/
def scanRefocus (stack : List Client) : Option Window :=
  (((stack.reverse).drop 1).find? viewableManaged).map Client.window

/-- Modelled from the spec: "pick first viewable managed client scanning
from the top downward, skipping the destroyed one" (section 4.4,
DestroyNotify row). -/
def specScanRefocus (stack : List Client) (destroyed : Window) : Option Window :=
  ((stack.reverse.filter (fun c => c.window ≠ destroyed)).find? viewableManaged).map Client.window

/-- `main.rs`, DestroyNotify arm, lines 291-295: remove the client only
after checking `has_client` ("Have to check here in case the window got
destroyed before we could add it"). -/
def removeStep (s : Clients) (window : Window) : Option Clients :=
  if s.has_client window then s.remove window else some s

/-- `main.rs`, DestroyNotify arm, lines 296-301: clear the drag if it
references the destroyed window. -/
def clearDragFor (drag : Option Drag) (window : Window) : Option Drag :=
  match drag with
  | some d => if d.window = window then none else some d
  | none => none

/-- The observable outcome of the DestroyNotify arm. -/
structure DestroyOutcome where
  focusRequest : Option Window
  clients : Clients
  drag : Option Drag
deriving DecidableEq, Repr

/-- `main.rs`, DestroyNotify arm, in full: if the destroyed window is the
focused one, scan for a replacement and issue a focus request; then the
guarded removal; then drag clearing.  (`get_focus` panics — `none` — when
the cached focus names an untracked window.) -/
def destroyNotify (s : Clients) (drag : Option Drag) (window : Window) :
    Option DestroyOutcome := do
  let focusRequest ←
    match s.focus with
    | none => some none
    | some f => do
        let iw ← s.get_with_index f
        if iw.2.window = window then some (scanRefocus s.stack) else some none
  let s1 ← removeStep s window
  some { focusRequest := focusRequest, clients := s1, drag := clearDragFor drag window }

/-- The fields of a CreateNotify event the handler reads. -/
structure CreateNotifyEvent where
  window : Window
  x : Int
  y : Int
  width : Int
  height : Int
  override_redirect : Bool
deriving DecidableEq, Repr

/-- `main.rs`: `OxWM::create_notify`: push a new client (with `state = None`
exactly when the event has override-redirect set), then run the manage setup
only when `!ev.override_redirect`.  The `WmProtocols`/`WmSizeHints`
arguments stand for the server round-trips `get_wm_protocols` /
`get_wm_normal_hints`.  Returns the new registry and whether the manage
setup ran. -/
def create_notify (s : Clients) (ev : CreateNotifyEvent)
    (protocols : WmProtocols) (hints : WmSizeHints) : Option (Clients × Bool) := do
  let newClient : Client :=
    { window := ev.window
      state :=
        if ev.override_redirect then none
        else some
          { x := ev.x, y := ev.y, width := ev.width, height := ev.height
            is_viewable := false
            wm_protocols := protocols
            wm_state := some { state := .Withdrawn, icon := 0 }
            wm_normal_hints := hints } }
  let s1 ← s.push newClient
  some (s1, !ev.override_redirect)

/-- A protocol failure: request-level ("no such window" — the target died)
or connection-level (the transport failed). -/
inductive XError : Type
  | requestError
  | connectionError
deriving DecidableEq, Repr

/-- `main.rs`, MapNotify arm: `self.atoms.set_wm_state(...)?;` — the `?`
operator propagates any failure of the WM_STATE write out of the arm. -/
def mapNotifyArm (setStateResult : Except XError Unit) : Except XError Unit := do
  let _ ← setStateResult
  pure ()

/-- `main.rs`, MotionNotify arm: `self.conn.configure_window(...)?.check()?;`
— the `?` operator propagates any failure of the configure request out of
the arm. -/
def motionNotifyArm (configureResult : Except XError Unit) : Except XError Unit := do
  let _ ← configureResult
  pure ()

/-- `main.rs`, ConfigureRequest arm: `if let Err(e) =
self.conn.configure_window(...)?.check() { log::warn!(...) }` — a failed
`check()` is logged and swallowed. -/
def configureRequestArm (configureResult : Except XError Unit) : Except XError Unit :=
  match configureResult with
  | .ok _ => .ok ()
  | .error _ => .ok ()

/-- `main.rs`, `OxWM::run`: an arm whose body evaluates to `Err` makes
`run` return, ending the event loop; only an `Ok` arm continues the loop. -/
def loopContinues (armResult : Except XError Unit) : Bool :=
  armResult.isOk

/-- A registry operation, for reasoning about sequences of mutations. -/
inductive Op : Type
  | push (client : Client)
  | remove (window : Window)
  | moveToAbove (window sibling : Window)
  | moveToBottom (window : Window)
  | moveToTop (window : Window)
deriving DecidableEq, Repr

/-- Apply one registry operation (`none` = a panic / failed assertion). -/
def applyOp (s : Clients) : Op → Option Clients
  | .push c => s.push c
  | .remove w => s.remove w
  | .moveToAbove w sib => s.move_to_above w sib
  | .moveToBottom w => s.move_to_bottom w
  | .moveToTop w => s.move_to_top w

/-- Run a sequence of registry operations. -/
def runOps (s : Clients) : List Op → Option Clients
  | [] => some s
  | op :: ops => (applyOp s op).bind (fun s1 => runOps s1 ops)

/-- The number of `push` operations in a sequence. -/
def countPush (ops : List Op) : Nat :=
  ops.countP (fun op => match op with | .push _ => true | _ => false)

/-- The number of `remove` operations in a sequence. -/
def countRemove (ops : List Op) : Nat :=
  ops.countP (fun op => match op with | .remove _ => true | _ => false)

/-- The focus invariant: the focus is `None` or names a window in the stack. -/
def focusOk (s : Clients) : Prop :=
  ∀ w, s.focus = some w → w ∈ stackIds s.stack

/-- The corner-pin property of one motion sample, per corner: the
coordinates of the corner diagonally opposite the dragged one are left
unchanged by the resulting partial geometry (a coordinate is unchanged
either because the field is absent from the partial geometry or because the
issued values keep the opposite edge where it was). -/
def oppositePinned (st : ClientState) (corner : Corner) (config : GeomConfig) : Prop :=
  match corner with
  | .LeftTop =>
      (∃ xv wv, config.x = some xv ∧ config.width = some wv ∧ xv + wv = st.x + st.width) ∧
      (∃ yv hv, config.y = some yv ∧ config.height = some hv ∧ yv + hv = st.y + st.height)
  | .LeftBottom =>
      config.y = none ∧
      (∃ xv wv, config.x = some xv ∧ config.width = some wv ∧ xv + wv = st.x + st.width)
  | .RightTop =>
      config.x = none ∧
      (∃ yv hv, config.y = some yv ∧ config.height = some hv ∧ yv + hv = st.y + st.height)
  | .RightBottom => config.x = none ∧ config.y = none

/-- A concrete viewable managed client state used by the scenarios below. -/
def stViewable : ClientState :=
  { x := 0, y := 0, width := 10, height := 10, is_viewable := true,
    wm_protocols := WmProtocols.new, wm_state := none, wm_normal_hints := {} }

/-- A concrete managed but not viewable client state. -/
def stHidden : ClientState := { stViewable with is_viewable := false }

/-- Scenario client `A` (window 1, viewable). -/
def clientA : Client := { window := 1, state := some stViewable }

/-- Scenario client `B` (window 2, managed but not viewable). -/
def clientB : Client := { window := 2, state := some stHidden }

/-- A viewable variant of window 2. -/
def clientB2 : Client := { window := 2, state := some stViewable }

/-- Scenario client `C` (window 3, viewable). -/
def clientC : Client := { window := 3, state := some stViewable }

/-- The spec's scenario: stack `[A, B, C]` with `focus = C`, only `A` and the
focused `C` viewable. -/
def scenarioClients : Clients := { stack := [clientA, clientB, clientC], focus := some 3 }

/-- A registry where the focused window (1) is not the topmost entry and both
windows are viewable managed clients. -/
def lowFocusClients : Clients := { stack := [clientA, clientB2], focus := some 1 }

/-- A managed client state whose WM_NORMAL_HINTS carry `min_size = (256, 256)`. -/
def stMin256 : ClientState :=
  { stViewable with wm_normal_hints := { min_size := some (256, 256) } }

/-- A registry with one managed window 7 carrying `min_size = (256, 256)`. -/
def clientsMin256 : Clients := { stack := [{ window := 7, state := some stMin256 }], focus := none }

/-- A registry with one override-redirect window 9 (`state = None`). -/
def clientsOverride : Clients := { stack := [{ window := 9, state := none }], focus := none }

/-- A ConfigureRequest asking for width 50 (well below `min_size` 256). -/
def requestWidth50 : CRAux := { width := some 50 }

/-- A managed client state with `max_size = (1000, 100)`: the width and
height maxima differ. -/
def stMax1000x100 : ClientState :=
  { stViewable with wm_normal_hints := { max_size := some (1000, 100) } }

/-- A bottom-right resize drag on window 7 with zero anchor offsets. -/
def dragRB : Drag := { type_ := .Resize .RightBottom, window := 7, x := 0, y := 0 }

/-- A pointer sample at (500, 500). -/
def ev500 : MotionEvent := { root_x := 500, root_y := 500, event_x := 500, event_y := 500 }

/-- A managed client state with `min = (100,100)`, `max = (400,400)`,
`base = (150,150)` and `increment = (10,10)`: a clamped size of 100 is
smaller than the base size 150. -/
def stBase150 : ClientState :=
  { stViewable with wm_normal_hints :=
    { min_size := some (100, 100), max_size := some (400, 400),
      base_size := some (150, 150), size_increment := some (10, 10) } }

/-- A pointer sample at (100, 100). -/
def ev100 : MotionEvent := { root_x := 100, root_y := 100, event_x := 100, event_y := 100 }

/-- A 300x200 managed window at (10, 20) with no size hints. -/
def stPlain : ClientState :=
  { x := 10, y := 20, width := 300, height := 200, is_viewable := true,
    wm_protocols := WmProtocols.new, wm_state := none, wm_normal_hints := {} }

/-- A top-left resize drag on window 5 with anchor offset (5, 5). -/
def dragLT : Drag := { type_ := .Resize .LeftTop, window := 5, x := 5, y := 5 }

/-- A pointer sample at (50, 60). -/
def evLT : MotionEvent := { root_x := 50, root_y := 60, event_x := 50, event_y := 60 }

/-- A CreateNotify event for a non-override-redirect window 4. -/
def createEv4 : CreateNotifyEvent :=
  { window := 4, x := 15, y := 25, width := 200, height := 150, override_redirect := false }

/-- `findWithIndex` returns an element satisfying the predicate. -/
theorem findWithIndex_pred {p : Client → Bool} :
    ∀ {l : List Client} {i : Nat} {c : Client},
      findWithIndex p l = some (i, c) → p c = true := by
  intro l
  induction l with
  | nil => intro i c h; exact absurd h (by simp [findWithIndex])
  | cons c0 cs ih =>
      intro i c h
      by_cases hp : p c0
      · rw [findWithIndex, if_pos hp] at h
        cases h
        exact hp
      · rw [findWithIndex, if_neg hp] at h
        cases hfind : findWithIndex p cs with
        | none => rw [hfind] at h; exact absurd h (by simp)
        | some jc =>
            rw [hfind] at h
            simp only [Option.map_some'] at h
            cases h
            exact ih (by rw [hfind])

/-- If no element satisfies the predicate, `findWithIndex` fails. -/
theorem findWithIndex_none {p : Client → Bool} :
    ∀ {l : List Client}, (∀ c ∈ l, p c = false) → findWithIndex p l = none := by
  intro l
  induction l with
  | nil => intro _; rfl
  | cons c0 cs ih =>
      intro h
      rw [findWithIndex, if_neg (by simp [h c0 (by simp)]), ih (fun c hc => h c (by simp [hc]))]
      rfl

/-- A successful `Vec::remove` splits the list into the removed element and a
permutation of the rest. -/
theorem vecRemove_perm :
    ∀ {i : Nat} {l : List Client} {c : Client} {rest : List Client},
      vecRemove i l = some (c, rest) → l.Perm (c :: rest) := by
  intro i
  induction i with
  | zero =>
      intro l c rest h
      cases l with
      | nil => exact absurd h (by simp [vecRemove])
      | cons c0 cs => rw [vecRemove] at h; cases h; exact List.Perm.refl _
  | succ i ih =>
      intro l c rest h
      cases l with
      | nil => exact absurd h (by simp [vecRemove])
      | cons c0 cs =>
          rw [vecRemove] at h
          cases hrec : vecRemove i cs with
          | none => rw [hrec] at h; exact absurd h (by simp)
          | some r =>
              rw [hrec] at h
              simp only [Option.map_some'] at h
              cases h
              have hp : cs.Perm (r.1 :: r.2) := ih hrec
              exact (hp.cons c0).trans (List.Perm.swap r.1 c0 r.2)

/-- A successful `Vec::insert` produces a permutation of consing the new
element onto the old list. -/
theorem vecInsert_perm {a : Client} :
    ∀ {i : Nat} {l l' : List Client},
      vecInsert i a l = some l' → l'.Perm (a :: l) := by
  intro i
  induction i with
  | zero =>
      intro l l' h
      rw [vecInsert] at h
      cases h
      exact List.Perm.refl _
  | succ i ih =>
      intro l l' h
      cases l with
      | nil => exact absurd h (by simp [vecInsert])
      | cons c0 cs =>
          rw [vecInsert] at h
          cases hrec : vecInsert i a cs with
          | none => rw [hrec] at h; exact absurd h (by simp)
          | some l1 =>
              rw [hrec] at h
              simp only [Option.map_some'] at h
              cases h
              exact ((ih hrec).cons c0).trans (List.Perm.swap a c0 cs)

/-- `vecRemove` at the index `findWithIndex` found removes exactly the found
element. -/
theorem findWithIndex_vecRemove {p : Client → Bool} :
    ∀ {l : List Client} {i : Nat} {c : Client},
      findWithIndex p l = some (i, c) → ∃ rest, vecRemove i l = some (c, rest) := by
  intro l
  induction l with
  | nil => intro i c h; exact absurd h (by simp [findWithIndex])
  | cons c0 cs ih =>
      intro i c h
      by_cases hp : p c0
      · rw [findWithIndex, if_pos hp] at h
        cases h
        exact ⟨cs, rfl⟩
      · rw [findWithIndex, if_neg hp] at h
        cases hfind : findWithIndex p cs with
        | none => rw [hfind] at h; exact absurd h (by simp)
        | some jc =>
            rw [hfind] at h
            simp only [Option.map_some'] at h
            cases h
            obtain ⟨rest, hrest⟩ := ih hfind
            exact ⟨c0 :: rest, by rw [vecRemove, hrest]; rfl⟩

/-- A successful `push` appends a fresh window id and keeps the focus. -/
theorem push_props {s : Clients} {c : Client} {s' : Clients}
    (h : s.push c = some s') :
    s'.stack = s.stack ++ [c] ∧ s'.focus = s.focus ∧ c.window ∉ stackIds s.stack := by
  rw [Clients.push] at h
  by_cases hdup : s.stack.any (fun x => x.window == c.window)
  · rw [if_pos hdup] at h; exact absurd h (by simp)
  · rw [if_neg hdup] at h
    cases h
    refine ⟨rfl, rfl, ?_⟩
    intro hmem
    apply hdup
    rw [List.any_eq_true]
    obtain ⟨x, hx, hxw⟩ := List.mem_map.mp hmem
    exact ⟨x, hx, by simp [hxw]⟩

/-- A successful `remove` takes out exactly the addressed window and clears
the focus exactly when it was the removed window. -/
theorem remove_props {s : Clients} {w : Window} {s' : Clients}
    (h : s.remove w = some s') :
    (∃ c : Client, c.window = w ∧ s.stack.Perm (c :: s'.stack)) ∧
      s'.focus = (if s.focus = some w then none else s.focus) := by
  rw [Clients.remove] at h
  cases hfind : s.get_with_index w with
  | none => rw [hfind] at h; exact absurd h (by simp)
  | some iw =>
      rw [hfind] at h
      cases hrem : vecRemove iw.1 s.stack with
      | none => simp [hrem] at h
      | some r =>
          simp only [hrem, Option.bind_eq_bind, Option.some_bind] at h
          cases h
          refine ⟨⟨r.1, ?_, vecRemove_perm hrem⟩, rfl⟩
          obtain ⟨rest, hrest⟩ := findWithIndex_vecRemove hfind
          rw [hrem] at hrest
          have hc : r.1 = iw.2 := by cases hrest; rfl
          rw [hc]
          simpa using findWithIndex_pred (p := fun c => c.window == w) hfind

/-- Each successful `move_to_*` permutes the stack and keeps the focus. -/
theorem move_props {s s' : Clients} :
    ((∃ w sib, s.move_to_above w sib = some s') ∨
     (∃ w, s.move_to_bottom w = some s') ∨
     (∃ w, s.move_to_top w = some s')) →
    s'.stack.Perm s.stack ∧ s'.focus = s.focus := by
  rintro (⟨w, sib, h⟩ | ⟨w, h⟩ | ⟨w, h⟩)
  · rw [Clients.move_to_above] at h
    cases hfind : s.get_with_index w with
    | none => rw [hfind] at h; exact absurd h (by simp)
    | some iw =>
        rw [hfind] at h
        simp only [Option.bind_eq_bind, Option.some_bind] at h
        by_cases hguard : 0 < iw.1 ∧ (s.stack.get? (iw.1 - 1)).map Client.window = some sib
        · rw [if_pos hguard] at h; cases h; exact ⟨List.Perm.refl _, rfl⟩
        · rw [if_neg hguard] at h
          cases hrem : vecRemove iw.1 s.stack with
          | none => rw [hrem] at h; exact absurd h (by simp)
          | some r =>
              rw [hrem] at h
              simp only [Option.bind_eq_bind, Option.some_bind] at h
              cases hfind2 : findWithIndex (fun c => c.window == sib) r.2 with
              | none => rw [hfind2] at h; exact absurd h (by simp)
              | some jw =>
                  rw [hfind2] at h
                  simp only [Option.bind_eq_bind, Option.some_bind] at h
                  cases hins : vecInsert (jw.1 + 1) r.1 r.2 with
                  | none => rw [hins] at h; exact absurd h (by simp)
                  | some stack2 =>
                      rw [hins] at h
                      simp only [Option.bind_eq_bind, Option.some_bind] at h
                      cases h
                      exact ⟨(vecInsert_perm hins).trans (vecRemove_perm hrem).symm, rfl⟩
  · rw [Clients.move_to_bottom] at h
    cases hhead : s.stack.head? with
    | none => rw [hhead] at h; exact absurd h (by simp)
    | some first =>
        rw [hhead] at h
        simp only [Option.bind_eq_bind, Option.some_bind] at h
        by_cases heq : first.window = w
        · rw [if_pos heq] at h; cases h; exact ⟨List.Perm.refl _, rfl⟩
        · rw [if_neg heq] at h
          cases hfind : s.get_with_index w with
          | none => rw [hfind] at h; exact absurd h (by simp)
          | some iw =>
              rw [hfind] at h
              simp only [Option.bind_eq_bind, Option.some_bind] at h
              cases hrem : vecRemove iw.1 s.stack with
              | none => rw [hrem] at h; exact absurd h (by simp)
              | some r =>
                  rw [hrem] at h
                  simp only [Option.bind_eq_bind, Option.some_bind] at h
                  cases h
                  exact ⟨(vecRemove_perm hrem).symm, rfl⟩
  · rw [Clients.move_to_top] at h
    cases hlast : s.stack.getLast? with
    | none => rw [hlast] at h; exact absurd h (by simp)
    | some top =>
        rw [hlast] at h
        simp only [Option.bind_eq_bind, Option.some_bind] at h
        by_cases heq : top.window = w
        · rw [if_pos heq] at h; cases h; exact ⟨List.Perm.refl _, rfl⟩
        · rw [if_neg heq] at h
          cases hfind : s.get_with_index w with
          | none => rw [hfind] at h; exact absurd h (by simp)
          | some iw =>
              rw [hfind] at h
              simp only [Option.bind_eq_bind, Option.some_bind] at h
              cases hrem : vecRemove iw.1 s.stack with
              | none => rw [hrem] at h; exact absurd h (by simp)
              | some r =>
                  rw [hrem] at h
                  simp only [Option.bind_eq_bind, Option.some_bind] at h
                  cases h
                  exact ⟨(List.perm_append_singleton r.1 r.2).trans (vecRemove_perm hrem).symm, rfl⟩

/-- One successful registry operation preserves id-distinctness and the
focus invariant, and changes the length by +1 for a push, -1 for a remove
and 0 for a reorder. -/
theorem applyOp_props {s s' : Clients} {op : Op}
    (h : applyOp s op = some s')
    (hnd : (stackIds s.stack).Nodup) (hf : focusOk s) :
    (stackIds s'.stack).Nodup ∧ focusOk s' ∧
      s'.stack.length + countRemove [op] = s.stack.length + countPush [op] := by
  cases op with
  | push c =>
      obtain ⟨hstack, hfocus, hfresh⟩ := push_props h
      refine ⟨?_, ?_, ?_⟩
      · rw [hstack]
        rw [stackIds, List.map_append] at *
        rw [List.nodup_append]
        exact ⟨hnd, List.nodup_singleton _, by
          intro a ha hb
          simp only [List.map_cons, List.map_nil, List.mem_singleton] at hb
          exact hfresh (by rwa [hb] at ha)⟩
      · intro v hv
        rw [hfocus] at hv
        rw [hstack, stackIds, List.map_append]
        exact List.mem_append_left _ (hf v hv)
      · rw [hstack]
        simp [countRemove, countPush, List.countP_cons]
  | remove w =>
      obtain ⟨⟨c, hcw, hperm⟩, hfocus⟩ := remove_props h
      have hidsperm : (stackIds s.stack).Perm (c.window :: stackIds s'.stack) :=
        hperm.map Client.window
      refine ⟨?_, ?_, ?_⟩
      · exact (hidsperm.nodup_iff.mp hnd).of_cons
      · intro v hv
        rw [hfocus] at hv
        by_cases hw : s.focus = some w
        · rw [if_pos hw] at hv; exact absurd hv (by simp)
        · rw [if_neg hw] at hv
          have hvmem := hf v hv
          have := hidsperm.mem_iff.mp hvmem
          rcases List.mem_cons.mp this with heq | hmem
          · rw [heq, hcw] at hv; exact absurd hv hw
          · exact hmem
      · have hlen := hperm.length_eq
        simp only [List.length_cons] at hlen
        simp [countRemove, countPush, List.countP_cons]
        omega
  | moveToAbove w sib =>
      obtain ⟨hperm, hfocus⟩ := move_props (Or.inl ⟨w, sib, h⟩)
      have hidsperm := hperm.map Client.window
      refine ⟨hidsperm.nodup_iff.mpr hnd, ?_, ?_⟩
      · intro v hv
        rw [hfocus] at hv
        exact hidsperm.mem_iff.mpr (hf v hv)
      · simp [countRemove, countPush, List.countP_cons, hperm.length_eq]
  | moveToBottom w =>
      obtain ⟨hperm, hfocus⟩ := move_props (Or.inr (Or.inl ⟨w, h⟩))
      have hidsperm := hperm.map Client.window
      refine ⟨hidsperm.nodup_iff.mpr hnd, ?_, ?_⟩
      · intro v hv
        rw [hfocus] at hv
        exact hidsperm.mem_iff.mpr (hf v hv)
      · simp [countRemove, countPush, List.countP_cons, hperm.length_eq]
  | moveToTop w =>
      obtain ⟨hperm, hfocus⟩ := move_props (Or.inr (Or.inr ⟨w, h⟩))
      have hidsperm := hperm.map Client.window
      refine ⟨hidsperm.nodup_iff.mpr hnd, ?_, ?_⟩
      · intro v hv
        rw [hfocus] at hv
        exact hidsperm.mem_iff.mpr (hf v hv)
      · simp [countRemove, countPush, List.countP_cons, hperm.length_eq]

/-- Splitting the push count at the head of an operation list. -/
theorem countPush_cons (op : Op) (ops : List Op) :
    countPush (op :: ops) = countPush [op] + countPush ops := by
  simp [countPush, List.countP_cons]
  omega

/-- Splitting the remove count at the head of an operation list. -/
theorem countRemove_cons (op : Op) (ops : List Op) :
    countRemove (op :: ops) = countRemove [op] + countRemove ops := by
  simp [countRemove, List.countP_cons]
  omega

/-- C9: for any sequence of `push`/`remove`/`move_to_above`/`move_to_bottom`/
`move_to_top` operations that runs without violating a precondition (the
model returns `some`; in particular every pushed id was fresh and every
addressed id present), the window ids of the resulting stack are pairwise
distinct, the final length plus the number of removes equals the initial
length plus the number of pushes, and the focus is `None` or an id present
in the stack; moreover removing the focused window sets the focus to
`None`. -/
theorem c9_registry_invariants :
    (∀ (ops : List Op) (init fin : Clients),
        (stackIds init.stack).Nodup → focusOk init → runOps init ops = some fin →
        (stackIds fin.stack).Nodup ∧
          fin.stack.length + countRemove ops = init.stack.length + countPush ops ∧
          focusOk fin) ∧
    (∀ (s s' : Clients) (w : Window),
        s.remove w = some s' → s.focus = some w → s'.focus = none) := by
  constructor
  · intro ops
    induction ops with
    | nil =>
        intro init fin hnd hf hrun
        rw [runOps] at hrun
        cases hrun
        exact ⟨hnd, by simp [countRemove, countPush], hf⟩
    | cons op ops ih =>
        intro init fin hnd hf hrun
        rw [runOps] at hrun
        cases happ : applyOp init op with
        | none => rw [happ] at hrun; exact absurd hrun (by simp)
        | some mid =>
            rw [happ] at hrun
            simp only [Option.bind_eq_bind, Option.some_bind] at hrun
            obtain ⟨hnd1, hf1, hlen1⟩ := applyOp_props happ hnd hf
            obtain ⟨hnd2, hlen2, hf2⟩ := ih mid fin hnd1 hf1 hrun
            refine ⟨hnd2, ?_, hf2⟩
            rw [countPush_cons, countRemove_cons]
            omega
  · intro s s' w h hfocus
    obtain ⟨_, hfeq⟩ := remove_props h
    rw [hfeq, if_pos hfocus]

/-- Witness for C9 at a concrete run: pushing windows 1 and 2 onto an empty
registry and removing window 1 succeeds and satisfies the invariants. -/
theorem c9_registry_invariants_witness :
    (stackIds ({ stack := [clientB2], focus := none } : Clients).stack).Nodup ∧
      ({ stack := [clientB2], focus := none } : Clients).stack.length +
          countRemove [Op.push clientA, Op.push clientB2, Op.remove 1] =
        ({ stack := [], focus := none } : Clients).stack.length +
          countPush [Op.push clientA, Op.push clientB2, Op.remove 1] ∧
      focusOk { stack := [clientB2], focus := none } :=
  c9_registry_invariants.1 [Op.push clientA, Op.push clientB2, Op.remove 1]
    { stack := [], focus := none } { stack := [clientB2], focus := none }
    (by simp [stackIds])
    (fun w h => by simp at h)
    (by rfl)

/-- C8: encoding a WmState to its two-word wire form and decoding it back
reproduces the value, for every icon and every state in
{Withdrawn, Normal, Iconic}; and decoding a first word equal to 2 fails. -/
theorem c8_wmstate_roundtrip :
    (∀ v : WmState, WmState.tryFromWords (WmState.toWords v) = some v) ∧
    (∀ icon : Nat, WmState.tryFromWords [2, icon] = none) := by
  constructor
  · intro v
    cases v with
    | mk s icon => cases s <;> rfl
  · intro icon
    rfl

/-- C4: contrary to the spec's failure semantics, the MapNotify arm's
WM_STATE write and the MotionNotify arm's configure request propagate a
request-level failure out of the event loop through `?`, terminating it,
while the ConfigureRequest arm logs the same class of failure and
continues. -/
theorem c4_request_error_aborts_loop :
    loopContinues (mapNotifyArm (Except.error XError.requestError)) = false ∧
    loopContinues (motionNotifyArm (Except.error XError.requestError)) = false ∧
    loopContinues (configureRequestArm (Except.error XError.requestError)) = true :=
  ⟨rfl, rfl, rfl⟩

/-- C2: contrary to the claim, the ConfigureRequest arm leaves a managed
window's requested geometry unclamped (width 50 passes through below the
256 minimum hint, because `Client::override_redirect` returns
`state.is_some()`), and it panics on an override-redirect window (the state
`unwrap`) instead of passing its geometry through. -/
theorem c2_configure_request_clamp_inverted :
    configureRequest clientsMin256 7 requestWidth50 = some requestWidth50 ∧
    configureRequest clientsOverride 9 requestWidth50 = none ∧
    (50 : Int) < 256 :=
  ⟨rfl, rfl, by norm_num⟩

/-- C6: at the bottom-right corner the width's upper clamp bound is
`max_height`, not `max_width`: with hints `max_size = (1000, 100)` and a
raw dragged width of 500, the issued width is 100, which is outside the
claimed range `[128, 1000]` (the default minimum 128 and the hinted
maximum width 1000). -/
theorem c6_right_bottom_width_clamped_by_max_height :
    (motionGeometry stMax1000x100 dragRB ev500).width = some 100 ∧
    ¬ ((128 : Int) ≤ 100 ∧ (100 : Int) ≤ 1000) :=
  ⟨rfl, by norm_num⟩

/-- C7: when the clamped size (100) is smaller than the base size (150), the
`u32` subtraction `width - base_width` wraps around (in a release build;
a debug build panics), and the snapped width becomes 94 — not the
spec-mandated largest `base + k*increment` not exceeding the clamped size,
which is 100. -/
theorem c7_snap_underflow_below_base :
    motionConfig stBase150 dragRB ev100 =
      some { x := none, y := none, width := some 94, height := some 94 } ∧
    specSnap 100 150 10 = 100 ∧
    (94 : Int) ≠ 100 :=
  ⟨rfl, rfl, by norm_num⟩

/-- For a positive increment, `specSnap` is the largest grid value
`base + k*increment` that does not exceed the given size: it justifies the
spec-side value used in the C7 comparison. -/
theorem specSnap_is_greatest {size base inc : Int} (hinc : 0 < inc) :
    specSnap size base inc ≤ size ∧
      ∀ k : Int, base + inc * k ≤ size → base + inc * k ≤ specSnap size base inc := by
  constructor
  · have h := Int.ediv_add_emod (size - base) inc
    have h1 : 0 ≤ (size - base) % inc := Int.emod_nonneg _ (by omega)
    rw [specSnap]
    omega
  · intro k hk
    rw [specSnap]
    have hle : k ≤ (size - base) / inc := by
      rw [Int.le_ediv_iff_mul_le hinc]
      have hc : k * inc = inc * k := mul_comm k inc
      omega
    have := Int.mul_le_mul_of_nonneg_left hle (le_of_lt hinc)
    omega

/-- Witness for `specSnap_is_greatest` at size 100, base 150, increment 10. -/
theorem specSnap_is_greatest_witness :
    specSnap 100 150 10 ≤ 100 ∧
      ∀ k : Int, 150 + 10 * k ≤ 100 → 150 + 10 * k ≤ specSnap 100 150 10 :=
  specSnap_is_greatest (by norm_num)

/-- C3 counterexample: `Clients::remove` on a window that is not in the
stack is not a no-op — it fails (the `unwrap` inside `get_with_index`
panics), contradicting the claim that it leaves the registry unchanged. -/
theorem c3_counterexample_remove_missing_panics :
    Clients.remove { stack := [clientA], focus := none } 5 = none ∧
    (none : Option Clients) ≠ some { stack := [clientA], focus := none } :=
  ⟨rfl, by simp⟩

/-- C3 as amended: bare `Clients::remove` on a missing window is a
precondition violation that panics rather than a no-op; the idempotent
no-op behaviour holds for the control loop's guarded removal (the
DestroyNotify arm checks `has_client` first) and for drag-cancellation
addressed at an untracked window, both of which leave stack, focus and drag
unchanged. -/
theorem c3_amended_guarded_remove_noop :
    (∀ (s : Clients) (w : Window), s.has_client w = false → removeStep s w = some s) ∧
    (∀ (s : Clients) (w : Window), s.has_client w = false → s.remove w = none) ∧
    (∀ (d : Drag) (w : Window), d.window ≠ w → clearDragFor (some d) w = some d) := by
  refine ⟨?_, ?_, ?_⟩
  · intro s w h
    rw [removeStep, h]
    rfl
  · intro s w h
    rw [Clients.remove]
    have hnone : s.get_with_index w = none := by
      rw [Clients.get_with_index]
      apply findWithIndex_none
      intro c hc
      rw [Clients.has_client] at h
      have := List.any_eq_false.mp h c hc
      simpa using this
    rw [hnone]
    rfl
  · intro d w h
    rw [clearDragFor, if_neg h]

/-- Witness for the C3 amendment at concrete inputs: window 5 is untracked
in a one-window registry, and a drag of window 3 is not cancelled by the
destruction of window 5. -/
theorem c3_amended_guarded_remove_noop_witness :
    removeStep { stack := [clientA], focus := none } 5 =
        some { stack := [clientA], focus := none } ∧
      Clients.remove { stack := [clientA], focus := some 1 } 5 = none ∧
      clearDragFor (some { type_ := DragType.Move, window := 3, x := 0, y := 0 }) 5 =
        some { type_ := DragType.Move, window := 3, x := 0, y := 0 } :=
  ⟨c3_amended_guarded_remove_noop.1 { stack := [clientA], focus := none } 5 (by decide),
   c3_amended_guarded_remove_noop.2.1 { stack := [clientA], focus := some 1 } 5 (by decide),
   c3_amended_guarded_remove_noop.2.2 { type_ := DragType.Move, window := 3, x := 0, y := 0 } 5
     (by decide)⟩

/-- C1 counterexample: with stack `[window 1, window 2]` (2 on top), both
viewable and managed, and focus on the *non-topmost* window 1, destroying
window 1 makes the scan (`iter().rev().skip(1)`) skip the topmost entry
rather than the destroyed window: the loop issues a focus request for
window 1 itself — the destroyed window — whereas the claimed scan ("from
the top downward, skipping the destroyed one") picks window 2. -/
theorem c1_counterexample_skips_top_not_destroyed :
    (destroyNotify lowFocusClients none 1).map DestroyOutcome.focusRequest =
        some (some 1) ∧
      specScanRefocus lowFocusClients.stack 1 = some 2 ∧
      some (1 : Window) ≠ some (2 : Window) :=
  ⟨rfl, rfl, by simp⟩

/-- C1 as amended: when a DestroyNotify event arrives for the focused
window, the control loop picks as replacement focus the first viewable
managed client found by scanning the stack from the top downward while
skipping the *topmost entry* (which coincides with the destroyed window
exactly when the focused window is on top), and issues a focus request for
it; in particular, for the stack `[A, B, C]` with `focus = C`, destroying
`C` when only `A` (and `C`) are viewable yields a focus request for `A`
and the 2-element stack `[A, B]`. -/
theorem c1_amended_destroy_refocus :
    (∀ (s : Clients) (drag : Option Drag) (w : Window) (res : DestroyOutcome),
        s.focus = some w → destroyNotify s drag w = some res →
        res.focusRequest =
          ((s.stack.dropLast.reverse).find? viewableManaged).map Client.window) ∧
    destroyNotify scenarioClients none 3 =
      some { focusRequest := some 1,
             clients := { stack := [clientA, clientB], focus := none },
             drag := none } := by
  constructor
  · intro s drag w res hfocus h
    unfold destroyNotify at h
    simp only [hfocus, Option.bind_eq_bind, Option.some_bind] at h
    cases hfind : s.get_with_index w with
    | none =>
        rw [hfind] at h
        exact absurd h (by simp)
    | some iw =>
        rw [hfind] at h
        have hw : iw.2.window = w := by
          simpa using findWithIndex_pred (p := fun c => c.window == w) hfind
        simp only [Option.bind_eq_bind, Option.some_bind, if_pos hw] at h
        cases hrs : removeStep s w with
        | none =>
            rw [hrs] at h
            exact absurd h (by simp)
        | some s1 =>
            rw [hrs] at h
            simp only [Option.bind_eq_bind, Option.some_bind] at h
            injection h with h2
            rw [← h2]
            show scanRefocus s.stack = _
            rw [scanRefocus, List.drop_one, List.tail_reverse]
  · rfl

/-- Witness for the C1 amendment at the spec's scenario: applying the
general part to the concrete scenario state. -/
theorem c1_amended_destroy_refocus_witness :
    ({ focusRequest := some 1,
       clients := { stack := [clientA, clientB], focus := none },
       drag := none } : DestroyOutcome).focusRequest =
      ((scenarioClients.stack.dropLast.reverse).find? viewableManaged).map Client.window :=
  c1_amended_destroy_refocus.1 scenarioClients none 3
    { focusRequest := some 1,
      clients := { stack := [clientA, clientB], focus := none },
      drag := none }
    rfl c1_amended_destroy_refocus.2

/-- C10: on every CreateNotify event for a fresh window id, the window is
pushed on top of the stack regardless of its override-redirect flag (with
`state = None` exactly for an override-redirect window), the focus is
untouched, and the manage setup runs exactly when the event's
override-redirect flag is false. -/
theorem c10_create_notify_pushes_all :
    ∀ (s : Clients) (ev : CreateNotifyEvent) (protocols : WmProtocols)
      (hints : WmSizeHints),
      s.has_client ev.window = false →
      ∃ c : Client,
        create_notify s ev protocols hints =
            some ({ s with stack := s.stack ++ [c] }, !ev.override_redirect) ∧
          c.window = ev.window ∧
          (c.state = none ↔ ev.override_redirect = true) := by
  intro s ev protocols hints h
  refine ⟨{ window := ev.window
            state :=
              if ev.override_redirect then none
              else some
                { x := ev.x, y := ev.y, width := ev.width, height := ev.height
                  is_viewable := false
                  wm_protocols := protocols
                  wm_state := some { state := .Withdrawn, icon := 0 }
                  wm_normal_hints := hints } }, ?_, rfl, ?_⟩
  · rw [create_notify, Clients.push]
    rw [Clients.has_client] at h
    rw [if_neg (by simp [h])]
    rfl
  · cases hor : ev.override_redirect <;> simp [hor]

/-- Witness for C10: creating the (fresh, managed) window 4 in the scenario
registry pushes it and runs the manage setup. -/
theorem c10_create_notify_pushes_all_witness :
    ∃ c : Client,
      create_notify scenarioClients createEv4 WmProtocols.new {} =
          some ({ scenarioClients with stack := scenarioClients.stack ++ [c] },
            !createEv4.override_redirect) ∧
        c.window = createEv4.window ∧
        (c.state = none ↔ createEv4.override_redirect = true) :=
  c10_create_notify_pushes_all scenarioClients createEv4 WmProtocols.new {} (by decide)

/-- C5: for a resize drag from corner C, each motion sample's computed
geometry (the corner match of the MotionNotify arm, before increment
snapping) leaves the coordinates of the corner diagonally opposite C
unchanged, even when the size is clamped to the hint bounds.  The
hypotheses state that the hint bounds are sane (ordered, nonnegative and in
`i32` range) and that the pointer offsets and the recomputed coordinates
stay in `i16` range, so no cast of the source wraps. -/
theorem c5_corner_pin
    (corner : Corner) (st : ClientState) (win : Window) (dx dy : Int)
    (ev : MotionEvent)
    (hminw : 0 ≤ (effMin st).1) (hwo : (effMin st).1 ≤ (effMax st).1)
    (hmaxw : (effMax st).1 ≤ 2147483647)
    (hminh : 0 ≤ (effMin st).2) (hho : (effMin st).2 ≤ (effMax st).2)
    (hmaxh : (effMax st).2 ≤ 2147483647)
    (hrx1 : -32768 ≤ ev.root_x - dx) (hrx2 : ev.root_x - dx ≤ 32767)
    (hry1 : -32768 ≤ ev.root_y - dy) (hry2 : ev.root_y - dy ≤ 32767)
    (hox1 : -32768 ≤ ev.root_x - dx - st.x) (hox2 : ev.root_x - dx - st.x ≤ 32767)
    (hoy1 : -32768 ≤ ev.root_y - dy - st.y) (hoy2 : ev.root_y - dy - st.y ≤ 32767)
    (hpw1 : -32768 ≤ st.x + st.width - (effMax st).1)
    (hpw2 : st.x + st.width - (effMin st).1 ≤ 32767)
    (hph1 : -32768 ≤ st.y + st.height - (effMax st).2)
    (hph2 : st.y + st.height - (effMin st).2 ≤ 32767) :
    oppositePinned st corner
      (motionGeometry st { type_ := DragType.Resize corner, window := win, x := dx, y := dy } ev) := by
  cases corner with
  | LeftTop =>
      simp only [motionGeometry, oppositePinned]
      split_ifs <;>
        exact ⟨⟨_, _, rfl, rfl, by simp only [wrap16, wrap32] at *; omega⟩,
               ⟨_, _, rfl, rfl, by simp only [wrap16, wrap32] at *; omega⟩⟩
  | LeftBottom =>
      simp only [motionGeometry, oppositePinned]
      split_ifs <;>
        exact ⟨trivial, ⟨_, _, rfl, rfl, by simp only [wrap16, wrap32] at *; omega⟩⟩
  | RightTop =>
      simp only [motionGeometry, oppositePinned]
      split_ifs <;>
        exact ⟨trivial, ⟨_, _, rfl, rfl, by simp only [wrap16, wrap32] at *; omega⟩⟩
  | RightBottom =>
      simp only [motionGeometry, oppositePinned]
      exact ⟨trivial, trivial⟩

/-- Witness for C5: a concrete top-left resize sample on a 300x200 window at
(10, 20) with no hints; all no-wrap hypotheses hold. -/
theorem c5_corner_pin_witness :
    oppositePinned stPlain Corner.LeftTop
      (motionGeometry stPlain
        { type_ := DragType.Resize Corner.LeftTop, window := 5, x := 5, y := 5 } evLT) :=
  c5_corner_pin Corner.LeftTop stPlain 5 5 5 evLT
    (by norm_num [effMin, stPlain, MIN_WIDTH, MIN_HEIGHT])
    (by norm_num [effMin, effMax, stPlain, MIN_WIDTH, MAX_WIDTH])
    (by norm_num [effMax, stPlain, MAX_WIDTH])
    (by norm_num [effMin, stPlain, MIN_WIDTH, MIN_HEIGHT])
    (by norm_num [effMin, effMax, stPlain, MIN_HEIGHT, MAX_HEIGHT])
    (by norm_num [effMax, stPlain, MAX_HEIGHT])
    (by norm_num [evLT]) (by norm_num [evLT])
    (by norm_num [evLT]) (by norm_num [evLT])
    (by norm_num [evLT, stPlain]) (by norm_num [evLT, stPlain])
    (by norm_num [evLT, stPlain]) (by norm_num [evLT, stPlain])
    (by norm_num [effMax, stPlain, MAX_WIDTH])
    (by norm_num [effMin, stPlain, MIN_WIDTH])
    (by norm_num [effMax, stPlain, MAX_HEIGHT])
    (by norm_num [effMin, stPlain, MIN_HEIGHT])
